import Mathlib

/-!
Verification of the market-data pipeline of `src/App.js` (filter predicate of
`fetchCryptoData`, `analyzePotential`, `generateAnalysis`, `sortData`).

JavaScript numeric values flowing through the pipeline are modelled exactly:
a field of a record is an `Option ℚ`, where `none` stands for an absent field
(`undefined`/`null`) or a non-numeric value — anything whose use in arithmetic
yields `NaN` — and `some q` stands for a finite number.  Arithmetic is carried
out in `JNum`, which adds `NaN` and the two signed infinities to the rationals,
with the usual JavaScript semantics (comparisons against `NaN` are false,
division by zero yields a signed infinity or `NaN`, ...).  Signed zero is not
tracked; it is never observable in this pipeline.
-/

/-- A JavaScript number: a finite value (modelled exactly as a rational),
`NaN`, or a signed infinity. -/
inductive JNum where
  | num (q : ℚ)
  | nan
  | inf
  | ninf
deriving DecidableEq

/-- Reading a record field for arithmetic: an absent or non-numeric field
behaves as `NaN`. -/
def toJNum : Option ℚ → JNum
  | none => JNum.nan
  | some q => JNum.num q

/-- JavaScript `<` on numbers: any comparison involving `NaN` is false,
`-Infinity` is below every other value, `Infinity` above. -/
def jlt : JNum → JNum → Bool
  | JNum.num a, JNum.num b => decide (a < b)
  | JNum.nan, _ => false
  | _, JNum.nan => false
  | JNum.inf, _ => false
  | JNum.ninf, JNum.ninf => false
  | JNum.ninf, _ => true
  | JNum.num _, JNum.inf => true
  | JNum.num _, JNum.ninf => false

/-- JavaScript `>` on numbers. -/
def jgt (a b : JNum) : Bool := jlt b a

/-- JavaScript division.  Division of a nonzero finite value by zero yields a
signed infinity, `0 / 0` yields `NaN`. -/
def jdiv : JNum → JNum → JNum
  | JNum.num a, JNum.num b =>
      if b = 0 then (if 0 < a then JNum.inf else if a < 0 then JNum.ninf else JNum.nan)
      else JNum.num (a / b)
  | JNum.nan, _ => JNum.nan
  | _, JNum.nan => JNum.nan
  | JNum.num _, JNum.inf => JNum.num 0
  | JNum.num _, JNum.ninf => JNum.num 0
  | JNum.inf, JNum.num b => if b < 0 then JNum.ninf else JNum.inf
  | JNum.ninf, JNum.num b => if b < 0 then JNum.inf else JNum.ninf
  | JNum.inf, JNum.inf => JNum.nan
  | JNum.inf, JNum.ninf => JNum.nan
  | JNum.ninf, JNum.inf => JNum.nan
  | JNum.ninf, JNum.ninf => JNum.nan

/-- JavaScript multiplication. -/
def jmul : JNum → JNum → JNum
  | JNum.num a, JNum.num b => JNum.num (a * b)
  | JNum.nan, _ => JNum.nan
  | _, JNum.nan => JNum.nan
  | JNum.inf, JNum.num b =>
      if b = 0 then JNum.nan else if b < 0 then JNum.ninf else JNum.inf
  | JNum.ninf, JNum.num b =>
      if b = 0 then JNum.nan else if b < 0 then JNum.inf else JNum.ninf
  | JNum.num a, JNum.inf =>
      if a = 0 then JNum.nan else if a < 0 then JNum.ninf else JNum.inf
  | JNum.num a, JNum.ninf =>
      if a = 0 then JNum.nan else if a < 0 then JNum.inf else JNum.ninf
  | JNum.inf, JNum.inf => JNum.inf
  | JNum.inf, JNum.ninf => JNum.ninf
  | JNum.ninf, JNum.inf => JNum.ninf
  | JNum.ninf, JNum.ninf => JNum.inf

/-- JavaScript subtraction. -/
def jsub : JNum → JNum → JNum
  | JNum.num a, JNum.num b => JNum.num (a - b)
  | JNum.nan, _ => JNum.nan
  | _, JNum.nan => JNum.nan
  | JNum.inf, JNum.inf => JNum.nan
  | JNum.inf, _ => JNum.inf
  | JNum.ninf, JNum.ninf => JNum.nan
  | JNum.ninf, _ => JNum.ninf
  | JNum.num _, JNum.inf => JNum.ninf
  | JNum.num _, JNum.ninf => JNum.inf

/-- JavaScript truthiness of a number: `0` and `NaN` are falsy, every other
number (including the infinities) is truthy. -/
def jtruthy : JNum → Bool
  | JNum.num q => decide (q ≠ 0)
  | JNum.nan => false
  | JNum.inf => true
  | JNum.ninf => true

/-- JavaScript truthiness of a record field: an absent (`undefined`/`null`)
field and `0` are falsy, every other number is truthy. -/
def truthy : Option ℚ → Bool
  | none => false
  | some q => decide (q ≠ 0)

/-- One market-data entry, with the fields the pipeline of `src/App.js` reads
(`name` for the narrative, the five numeric fields for filtering, scoring and
sorting; purely presentational fields such as `id`, `symbol` and `image` are
not consumed by the pipeline).  A field holds `none` when it is absent or
non-numeric. -/
structure MarketRecord where
  name : String
  market_cap : Option ℚ
  total_volume : Option ℚ
  price_change_percentage_24h : Option ℚ
  total_supply : Option ℚ
  circulating_supply : Option ℚ
deriving DecidableEq

/-- The result of `analyzePotential`: an accumulated integer score and the
list of factor texts, in the order they were pushed. -/
structure PotentialScore where
  value : ℕ
  factors : List String
deriving DecidableEq

/-- The market-cap rule group of `analyzePotential` (`src/App.js` lines
53-60). -/
def capGroup (crypto : MarketRecord) : ℕ × List String :=
  let marketCapInMillions := jdiv (toJNum crypto.market_cap) (JNum.num 1000000)
  if jlt marketCapInMillions (JNum.num 10) then
    (4, ["Micro market cap with massive growth potential"])
  else if jlt marketCapInMillions (JNum.num 50) then
    (3, ["Very low market cap with high growth potential"])
  else (0, [])

/-- The volume-to-market-cap rule group of `analyzePotential` (`src/App.js`
lines 62-69). -/
def volumeGroup (crypto : MarketRecord) : ℕ × List String :=
  let volumeToMarketCap := jdiv (toJNum crypto.total_volume) (toJNum crypto.market_cap)
  if jgt volumeToMarketCap (JNum.num (1/2)) then
    (4, ["Exceptional trading volume relative to market cap"])
  else if jgt volumeToMarketCap (JNum.num (3/10)) then
    (3, ["Very high trading volume relative to market cap"])
  else (0, [])

/-- The 24h price-change rule group of `analyzePotential` (`src/App.js` lines
71-77). -/
def momentumGroup (crypto : MarketRecord) : ℕ × List String :=
  if jgt (toJNum crypto.price_change_percentage_24h) (JNum.num 15) then
    (4, ["Strong positive price momentum (>15%)"])
  else if jgt (toJNum crypto.price_change_percentage_24h) (JNum.num 8) then
    (2, ["Good positive price momentum (>8%)"])
  else (0, [])

/-- The supply-ratio rule group of `analyzePotential` (`src/App.js` lines
79-88).  The guard is JavaScript truthiness of both supply fields. -/
def supplyGroup (crypto : MarketRecord) : ℕ × List String :=
  if truthy crypto.total_supply && truthy crypto.circulating_supply then
    let supplyShare := jdiv (toJNum crypto.circulating_supply) (toJNum crypto.total_supply)
    if jlt supplyShare (JNum.num (3/10)) then
      (3, ["Very large room for supply growth"])
    else if jlt supplyShare (JNum.num (1/2)) then
      (2, ["Significant room for supply growth"])
    else (0, [])
  else (0, [])

/-- The independent bonus rule of `analyzePotential` (`src/App.js` lines
90-93). -/
def bonusGroup (crypto : MarketRecord) : ℕ × List String :=
  if jgt (toJNum crypto.total_volume) (toJNum crypto.market_cap) then
    (2, ["Extremely high trading activity"])
  else (0, [])

/-- The scorer `analyzePotential` (`src/App.js` lines 47-96): the five rule blocks are
evaluated in order, each adding its points to `score.value` and pushing its
factor text onto `score.factors`. -/
def analyzePotential (crypto : MarketRecord) : PotentialScore :=
  { value := (capGroup crypto).1 + (volumeGroup crypto).1 + (momentumGroup crypto).1
      + (supplyGroup crypto).1 + (bonusGroup crypto).1,
    factors := (capGroup crypto).2 ++ (volumeGroup crypto).2 ++ (momentumGroup crypto).2
      ++ (supplyGroup crypto).2 ++ (bonusGroup crypto).2 }

/-- The inclusion predicate of the `data.filter` call in `fetchCryptoData`
(`src/App.js` lines 30-37). -/
def gemPredicate (crypto : MarketRecord) : Bool :=
  let marketCapInMillions := jdiv (toJNum crypto.market_cap) (JNum.num 1000000)
  let volumeToMarketCap := jdiv (toJNum crypto.total_volume) (toJNum crypto.market_cap)
  jlt marketCapInMillions (JNum.num 100) &&
    jgt volumeToMarketCap (JNum.num (1/10)) &&
    jgt (toJNum crypto.market_cap) (JNum.num 0)

/-- The `data.filter(...)` call of `fetchCryptoData` (`src/App.js` lines 30-37). -/
def potentialGems (data : List MarketRecord) : List MarketRecord :=
  data.filter gemPredicate

/-- Left-pad a digit string with zeros to the requested width. -/
def padZeros (s : String) (width : ℕ) : String :=
  String.mk (List.replicate (width - s.length) '0') ++ s

/-- Model of `Number.prototype.toFixed` on a finite value, per the ECMAScript
algorithm: the sign is split off first, then the closest integer numerator for
`fractionDigits` decimal places is chosen, ties picking the larger. -/
def toFixedQ (q : ℚ) (fractionDigits : ℕ) : String :=
  let sign := if q < 0 then "-" else ""
  let n : ℕ := (Rat.floor (|q| * (10 : ℚ) ^ fractionDigits + 1/2)).toNat
  if fractionDigits = 0 then sign ++ toString n
  else sign ++ toString (n / 10 ^ fractionDigits) ++ "." ++
    padZeros (toString (n % 10 ^ fractionDigits)) fractionDigits

/-- Model of `Number.prototype.toFixed` on any JavaScript number. -/
def toFixed (j : JNum) (fractionDigits : ℕ) : String :=
  match j with
  | JNum.num q => toFixedQ q fractionDigits
  | JNum.nan => "NaN"
  | JNum.inf => "Infinity"
  | JNum.ninf => "-Infinity"

/-- The narrator `generateAnalysis` (`src/App.js` lines 98-107).  Each of the three
conditional clauses is the empty string when its guard is falsy; `supplyShare`
models the `supplyRatio` local, which is `null` when `total_supply` is falsy. -/
def generateAnalysis (crypto : MarketRecord) : String :=
  let marketCapInMillions := jdiv (toJNum crypto.market_cap) (JNum.num 1000000)
  let volumeToMarketCap := jdiv (toJNum crypto.total_volume) (toJNum crypto.market_cap)
  let supplyShare : Option JNum :=
    if truthy crypto.total_supply then
      some (jmul (jdiv (toJNum crypto.circulating_supply) (toJNum crypto.total_supply))
        (JNum.num 100))
    else none
  (crypto.name ++ " shows promise with a market cap of only $" ++
      toFixed marketCapInMillions 2 ++ "M. ") ++
  (if jgt volumeToMarketCap (JNum.num (3/10)) then
      "It has strong trading volume at " ++ toFixed (jmul volumeToMarketCap (JNum.num 100)) 1 ++
        "% of its market cap. "
    else "") ++
  (if jgt (toJNum crypto.price_change_percentage_24h) (JNum.num 0) then
      "Price is up " ++ toFixed (toJNum crypto.price_change_percentage_24h) 1 ++
        "% in the last 24h. "
    else "") ++
  (match supplyShare with
    | some j => if jtruthy j then
        "Only " ++ toFixed j 1 ++ "% of total supply is in circulation. "
      else ""
    | none => "")

/-- The sort fields the component can request: the synthetic `potentialScore`
plus the numeric record fields. -/
inductive SortField where
  | potentialScore
  | marketCap
  | totalVolume
  | priceChangePercent24h
  | totalSupply
  | circulatingSupply
deriving DecidableEq

/-- Sort direction held in the component state. -/
inductive SortDirection where
  | asc
  | desc
deriving DecidableEq

/-- The property read `a[sortField]` of the generic branch of the comparator.
`potentialScore` is not a record property, so reading it yields `undefined`
(`NaN` in arithmetic); that branch is unreachable in `sortComparator`. -/
def fieldValue : SortField → MarketRecord → JNum
  | SortField.potentialScore, _ => JNum.nan
  | SortField.marketCap, r => toJNum r.market_cap
  | SortField.totalVolume, r => toJNum r.total_volume
  | SortField.priceChangePercent24h, r => toJNum r.price_change_percentage_24h
  | SortField.totalSupply, r => toJNum r.total_supply
  | SortField.circulatingSupply, r => toJNum r.circulating_supply

/-- The comparator closure passed to `sort` in `sortData` (`src/App.js` lines
110-119). -/
def sortComparator (sortField : SortField) (sortDirection : SortDirection)
    (a b : MarketRecord) : JNum :=
  match sortField with
  | SortField.potentialScore =>
      let scoreA : ℚ := ((analyzePotential a).value : ℚ)
      let scoreB : ℚ := ((analyzePotential b).value : ℚ)
      (match sortDirection with
        | SortDirection.desc => JNum.num (scoreB - scoreA)
        | SortDirection.asc => JNum.num (scoreA - scoreB))
  | f =>
      let aValue := fieldValue f a
      let bValue := fieldValue f b
      (match sortDirection with
        | SortDirection.desc => jsub bValue aValue
        | SortDirection.asc => jsub aValue bValue)

/-- The "may come first" relation induced by the comparator: `a` may precede
`b` unless the comparator is strictly positive.  A `NaN` comparator result is
treated as `+0`, as the ECMAScript `SortCompare` does. -/
def sortLe (sortField : SortField) (sortDirection : SortDirection)
    (a b : MarketRecord) : Bool :=
  ! jgt (sortComparator sortField sortDirection a b) (JNum.num 0)

/-- Insert an element into a list, before the first element it may precede.
Together with `jsSort` this is a stable sort, modelling the (ES2019+,
required-stable) `Array.prototype.sort`. -/
def insertSorted (le : α → α → Bool) (x : α) : List α → List α
  | [] => [x]
  | y :: ys => if le x y then x :: y :: ys else y :: insertSorted le x ys

/-- Stable insertion sort, modelling `Array.prototype.sort` with a
comparator. -/
def jsSort (le : α → α → Bool) : List α → List α
  | [] => []
  | x :: xs => insertSorted le x (jsSort le xs)

/-- The ranker `sortData` (`src/App.js` lines 109-120): copy the array and sort the copy
with the comparator closed over the component's sort state. -/
def sortData (sortField : SortField) (sortDirection : SortDirection)
    (data : List MarketRecord) : List MarketRecord :=
  jsSort (sortLe sortField sortDirection) data

/-- A heap of arrays of records; an array reference is an index into the
heap.  This models JavaScript array identity, so that `sortData`'s fresh-copy
behaviour (`[...data].sort`) is observable. -/
structure ArrayStore where
  arrays : List (List MarketRecord)
deriving DecidableEq

/-- Dereference an array in the store. -/
def readArray (s : ArrayStore) (ref : ℕ) : List MarketRecord :=
  s.arrays.getD ref []

/-- One invocation of `sortData` on the array named by `ref`: `[...data]`
allocates a fresh array, which `.sort` then orders in place; the store gains
the new array and the call returns its reference. -/
def sortDataCall (sortField : SortField) (sortDirection : SortDirection)
    (s : ArrayStore) (ref : ℕ) : ArrayStore × ℕ :=
  (⟨s.arrays ++ [sortData sortField sortDirection (readArray s ref)]⟩, s.arrays.length)

/-!
Specification-side definitions.  These follow the words of the spec (and of
the claims derived from it), to be compared with the source-derived functions
above.
-/

/-- The filter's inclusion conditions as the spec states them (§4.1):
`marketCap > 0`, `marketCap / 1_000_000 < 100`, `totalVolume / marketCap >
0.1`, on numeric field values. -/
def specFilterCond (r : MarketRecord) : Prop :=
  ∃ c, r.market_cap = some c ∧ 0 < c ∧ c / 1000000 < 100 ∧
    ∃ v, r.total_volume = some v ∧ v / c > 1/10

/-- Spec §4.2, market-cap group. -/
def specCapTier (c : ℚ) : ℕ × List String :=
  if c / 1000000 < 10 then (4, ["Micro market cap with massive growth potential"])
  else if c / 1000000 < 50 then (3, ["Very low market cap with high growth potential"])
  else (0, [])

/-- Spec §4.2, volume/cap-ratio group. -/
def specVolTier (c v : ℚ) : ℕ × List String :=
  if v / c > 1/2 then (4, ["Exceptional trading volume relative to market cap"])
  else if v / c > 3/10 then (3, ["Very high trading volume relative to market cap"])
  else (0, [])

/-- Spec §4.2, 24h price-change group. -/
def specMomTier (p : ℚ) : ℕ × List String :=
  if p > 15 then (4, ["Strong positive price momentum (>15%)"])
  else if p > 8 then (2, ["Good positive price momentum (>8%)"])
  else (0, [])

/-- Spec §4.2, supply-ratio group, read literally: it applies whenever both
supply fields are present and the denominator is non-zero. -/
def specSupplyTier (ts cs : Option ℚ) : ℕ × List String :=
  match ts, cs with
  | some t, some u =>
      if t = 0 then (0, [])
      else if u / t < 3/10 then (3, ["Very large room for supply growth"])
      else if u / t < 1/2 then (2, ["Significant room for supply growth"])
      else (0, [])
  | _, _ => (0, [])

/-- The supply-ratio group as the code actually guards it: both supply fields
must also be non-zero (JavaScript truthiness). -/
def specSupplyTierStrict (ts cs : Option ℚ) : ℕ × List String :=
  match ts, cs with
  | some t, some u =>
      if t = 0 ∨ u = 0 then (0, [])
      else if u / t < 3/10 then (3, ["Very large room for supply growth"])
      else if u / t < 1/2 then (2, ["Significant room for supply growth"])
      else (0, [])
  | _, _ => (0, [])

/-- Spec §4.2, independent bonus rule. -/
def specBonusTier (c v : ℚ) : ℕ × List String :=
  if v > c then (2, ["Extremely high trading activity"])
  else (0, [])

/-- The §4.2 rule table read literally, on a record with numeric `marketCap`,
`totalVolume` and `priceChangePercent24h`: the sum of the triggered
contributions, factor texts in rule-evaluation order. -/
def specScoreTable (c v p : ℚ) (ts cs : Option ℚ) : PotentialScore :=
  { value := (specCapTier c).1 + (specVolTier c v).1 + (specMomTier p).1
      + (specSupplyTier ts cs).1 + (specBonusTier c v).1,
    factors := (specCapTier c).2 ++ (specVolTier c v).2 ++ (specMomTier p).2
      ++ (specSupplyTier ts cs).2 ++ (specBonusTier c v).2 }

/-- The §4.2 rule table with the supply group under the truthiness guard the
code uses. -/
def specScoreTableStrict (c v p : ℚ) (ts cs : Option ℚ) : PotentialScore :=
  { value := (specCapTier c).1 + (specVolTier c v).1 + (specMomTier p).1
      + (specSupplyTierStrict ts cs).1 + (specBonusTier c v).1,
    factors := (specCapTier c).2 ++ (specVolTier c v).2 ++ (specMomTier p).2
      ++ (specSupplyTierStrict ts cs).2 ++ (specBonusTier c v).2 }

/-- Spec §4.4, clause 1 (always present), with its trailing separator. -/
def specClause1 (name : String) (c : ℚ) : String :=
  name ++ " shows promise with a market cap of only $" ++ toFixedQ (c / 1000000) 2 ++ "M. "

/-- Spec §4.4, clause 2 (volume/cap ratio above 0.3). -/
def specClause2 (c v : ℚ) : String :=
  "It has strong trading volume at " ++ toFixedQ (v / c * 100) 1 ++ "% of its market cap. "

/-- Spec §4.4, clause 3 (positive 24h change). -/
def specClause3 (p : ℚ) : String :=
  "Price is up " ++ toFixedQ p 1 ++ "% in the last 24h. "

/-- Spec §4.4, clause 4 (circulating share of total supply). -/
def specClause4 (t u : ℚ) : String :=
  "Only " ++ toFixedQ (u / t * 100) 1 ++ "% of total supply is in circulation. "

/-- Spec §4.4 read literally: clause 4 appears whenever both supply fields
are present. -/
def specNarrate (name : String) (c v p : ℚ) (ts cs : Option ℚ) : String :=
  specClause1 name c ++
  (if v / c > 3/10 then specClause2 c v else "") ++
  (if 0 < p then specClause3 p else "") ++
  (match ts, cs with
    | some t, some u => specClause4 t u
    | _, _ => "")

/-- Spec §4.4 with clause 4 under the guard the code uses: both supply fields
present and non-zero (truthiness). -/
def specNarrateStrict (name : String) (c v p : ℚ) (ts cs : Option ℚ) : String :=
  specClause1 name c ++
  (if v / c > 3/10 then specClause2 c v else "") ++
  (if 0 < p then specClause3 p else "") ++
  (match ts, cs with
    | some t, some u => if t ≠ 0 ∧ u ≠ 0 then specClause4 t u else ""
    | _, _ => "")

/-- Number of rule groups of `analyzePotential` that fire on a record: a
tiered group fires exactly when its weakest tier condition holds. -/
def triggeredCount (r : MarketRecord) : ℕ :=
  (jlt (jdiv (toJNum r.market_cap) (JNum.num 1000000)) (JNum.num 50)).toNat
  + (jgt (jdiv (toJNum r.total_volume) (toJNum r.market_cap)) (JNum.num (3/10))).toNat
  + (jgt (toJNum r.price_change_percentage_24h) (JNum.num 8)).toNat
  + (truthy r.total_supply && truthy r.circulating_supply
      && jlt (jdiv (toJNum r.circulating_supply) (toJNum r.total_supply)) (JNum.num (1/2))).toNat
  + (jgt (toJNum r.total_volume) (toJNum r.market_cap)).toNat

/-- Whether a record carries a numeric value for the requested sort key
(`potentialScore` is always computable). -/
def keyNumeric : SortField → MarketRecord → Bool
  | SortField.potentialScore, _ => true
  | f, r => decide (fieldValue f r ≠ JNum.nan)

/-- The rational sort key of a record: the computed score for
`potentialScore`, the field value otherwise (defaulting to `0` when absent,
a case ruled out by `keyNumeric`). -/
def keyQ : SortField → MarketRecord → ℚ
  | SortField.potentialScore, r => ((analyzePotential r).value : ℚ)
  | f, r =>
      match fieldValue f r with
      | JNum.num q => q
      | _ => 0

/-- The ordering contract of §4.3 for a requested field and direction. -/
def keyOrder (f : SortField) (d : SortDirection) (a b : MarketRecord) : Prop :=
  match d with
  | SortDirection.desc => keyQ f b ≤ keyQ f a
  | SortDirection.asc => keyQ f a ≤ keyQ f b

/-!
Concrete records used to instantiate the theorems.
-/

/-- Scenario A of §8. -/
def recordA : MarketRecord :=
  { name := "A", market_cap := some 5000000, total_volume := some 3000000,
    price_change_percentage_24h := some 20, total_supply := some 100,
    circulating_supply := some 20 }

/-- A record with every data field absent. -/
def recordNone : MarketRecord :=
  { name := "N", market_cap := none, total_volume := none,
    price_change_percentage_24h := none, total_supply := none,
    circulating_supply := none }

/-- A record whose supply fields are both present but whose circulating
supply is zero — present, yet falsy. -/
def recordZeroCirc : MarketRecord :=
  { name := "Z", market_cap := some 5000000, total_volume := some 1000000,
    price_change_percentage_24h := some 0, total_supply := some 100,
    circulating_supply := some 0 }

/-- A record excluded by the filter (volume/cap ratio 0.025, Scenario B). -/
def recordB : MarketRecord :=
  { name := "B", market_cap := some 80000000, total_volume := some 2000000,
    price_change_percentage_24h := some 5, total_supply := none,
    circulating_supply := none }

/-- Two records with the same computed score, for the stability scenario. -/
def recordT1 : MarketRecord :=
  { name := "T1", market_cap := some 5000000, total_volume := some 1000000,
    price_change_percentage_24h := some 0, total_supply := none,
    circulating_supply := none }

/-- Second record of the tie pair. -/
def recordT2 : MarketRecord :=
  { name := "T2", market_cap := some 6000000, total_volume := some 1200000,
    price_change_percentage_24h := some 0, total_supply := none,
    circulating_supply := none }

/-- A one-array store holding the tie pair. -/
def storeW : ArrayStore := ⟨[[recordT1, recordT2]]⟩

/-- A record whose 24h volume exceeds its market cap. -/
def recordHot : MarketRecord :=
  { name := "H", market_cap := some 1000000, total_volume := some 2000000,
    price_change_percentage_24h := none, total_supply := none,
    circulating_supply := none }

/-!
Helper lemmas about the JavaScript-number model.
-/

theorem jlt_num_num (a b : ℚ) : jlt (JNum.num a) (JNum.num b) = decide (a < b) := rfl

theorem jgt_num_num (a b : ℚ) : jgt (JNum.num a) (JNum.num b) = decide (b < a) := rfl

theorem jdiv_num_num (a : ℚ) {b : ℚ} (h : b ≠ 0) :
    jdiv (JNum.num a) (JNum.num b) = JNum.num (a / b) := by
  simp [jdiv, h]

theorem jdiv_nan_left (x : JNum) : jdiv JNum.nan x = JNum.nan := by
  cases x <;> rfl

theorem jdiv_nan_right (x : JNum) : jdiv x JNum.nan = JNum.nan := by
  cases x <;> rfl

theorem jgt_nan_left (x : JNum) : jgt JNum.nan x = false := by
  cases x <;> rfl

theorem jgt_nan_right (x : JNum) : jgt x JNum.nan = false := by
  cases x <;> rfl

theorem jlt_nan_left (x : JNum) : jlt JNum.nan x = false := by
  cases x <;> rfl

theorem jlt_nan_right (x : JNum) : jlt x JNum.nan = false := by
  cases x <;> rfl

theorem jmul_nan_left (x : JNum) : jmul JNum.nan x = JNum.nan := by
  cases x <;> rfl

theorem jsub_nan_left (x : JNum) : jsub JNum.nan x = JNum.nan := by
  cases x <;> rfl

theorem jsub_nan_right (x : JNum) : jsub x JNum.nan = JNum.nan := by
  cases x <;> rfl

theorem jsub_num_num (a b : ℚ) : jsub (JNum.num a) (JNum.num b) = JNum.num (a - b) := rfl

/-- A value below a bound is below every larger bound (in particular a first
tier condition implies the weaker second tier condition). -/
theorem jlt_num_mono {x : JNum} {a b : ℚ} (hab : a ≤ b) (h : jlt x (JNum.num a) = true) :
    jlt x (JNum.num b) = true := by
  cases x with
  | num q =>
    rw [jlt_num_num] at h ⊢
    exact decide_eq_true (lt_of_lt_of_le (of_decide_eq_true h) hab)
  | nan => exact absurd h (by simp [jlt])
  | inf => exact absurd h (by simp [jlt])
  | ninf => rfl

/-- Dually for `>` against a lowered bound. -/
theorem jgt_num_mono {x : JNum} {a b : ℚ} (hab : a ≤ b) (h : jgt x (JNum.num b) = true) :
    jgt x (JNum.num a) = true := by
  cases x with
  | num q =>
    rw [jgt_num_num] at h ⊢
    exact decide_eq_true (lt_of_le_of_lt hab (of_decide_eq_true h))
  | nan => exact absurd h (by simp [jgt, jlt])
  | inf => rfl
  | ninf => exact absurd h (by simp [jgt, jlt])

/-!
The candidate filter.
-/

/-- The filter predicate holds exactly on the records satisfying the three
spec conditions on numeric field values. -/
theorem gemPredicate_eq_true_iff (r : MarketRecord) :
    gemPredicate r = true ↔ specFilterCond r := by
  unfold gemPredicate specFilterCond
  cases hc : r.market_cap with
  | none =>
    simp [toJNum, jdiv_nan_left, jlt_nan_left, jgt, jlt]
  | some c =>
    rcases eq_or_ne c 0 with rfl | hc0
    · simp [toJNum, jgt, jlt]
    · rw [show toJNum (some c) = JNum.num c from rfl,
        jdiv_num_num c (by norm_num : (1000000 : ℚ) ≠ 0)]
      cases hv : r.total_volume with
      | none =>
        simp [toJNum, jdiv_nan_left, jgt_nan_left, jgt, jlt]
      | some v =>
        rw [show toJNum (some v) = JNum.num v from rfl, jdiv_num_num v hc0]
        simp only [jlt_num_num, jgt_num_num, Bool.and_eq_true, decide_eq_true_eq]
        constructor
        · rintro ⟨⟨h1, h2⟩, h3⟩
          exact ⟨c, rfl, h3, h1, v, rfl, h2⟩
        · rintro ⟨c', hc', h3, h1, v', hv', h2⟩
          obtain rfl : c = c' := by injection hc'
          obtain rfl : v = v' := by injection hv'
          exact ⟨⟨h1, h2⟩, h3⟩

/-- C2: for every input sequence, the filter's output is an order-preserving
subsequence of the input; a record is in the output exactly when it is in the
input and satisfies the three inclusion conditions (`marketCap > 0`,
`marketCap/1e6 < 100`, `totalVolume/marketCap > 0.1`); every excluded record
violates at least one condition. -/
theorem filter_output_characterization (data : List MarketRecord) :
    (potentialGems data).Sublist data
    ∧ (∀ r, r ∈ potentialGems data ↔ r ∈ data ∧ specFilterCond r)
    ∧ (∀ r, r ∈ data → r ∉ potentialGems data → ¬ specFilterCond r) := by
  refine ⟨List.filter_sublist data, ?_, ?_⟩
  · intro r
    rw [potentialGems, List.mem_filter, gemPredicate_eq_true_iff]
  · intro r hr hout hcond
    exact hout (by
      rw [potentialGems, List.mem_filter]
      exact ⟨hr, (gemPredicate_eq_true_iff r).mpr hcond⟩)

/-- Witness for C2 at a concrete input: Scenario A's record is kept, the
subsequence property holds on a concrete two-record list. -/
theorem filter_output_characterization_witness :
    (potentialGems [recordA, recordB]).Sublist [recordA, recordB]
    ∧ recordA ∈ potentialGems [recordA, recordB] := by
  refine ⟨(filter_output_characterization [recordA, recordB]).1, ?_⟩
  exact ((filter_output_characterization [recordA, recordB]).2.1 recordA).mpr
    ⟨by simp, 5000000, rfl, of_decide_eq_true (by with_unfolding_all rfl),
      of_decide_eq_true (by with_unfolding_all rfl), 3000000, rfl,
      of_decide_eq_true (by with_unfolding_all rfl)⟩

/-!
The potential scorer: relating each source rule group to the spec's rule
table on numeric field values.
-/

theorem toJNum_some (q : ℚ) : toJNum (some q) = JNum.num q := rfl

theorem capGroup_eq {r : MarketRecord} {c : ℚ} (hc : r.market_cap = some c) :
    capGroup r = specCapTier c := by
  unfold capGroup specCapTier
  rw [hc, toJNum_some, jdiv_num_num c (by norm_num : (1000000 : ℚ) ≠ 0)]
  simp [jlt_num_num]

theorem volumeGroup_eq {r : MarketRecord} {c v : ℚ} (hc : r.market_cap = some c)
    (hv : r.total_volume = some v) (hc0 : c ≠ 0) :
    volumeGroup r = specVolTier c v := by
  unfold volumeGroup specVolTier
  rw [hc, hv, toJNum_some, toJNum_some, jdiv_num_num v hc0]
  simp [jgt_num_num]

theorem momentumGroup_eq {r : MarketRecord} {p : ℚ}
    (hp : r.price_change_percentage_24h = some p) :
    momentumGroup r = specMomTier p := by
  unfold momentumGroup specMomTier
  rw [hp, toJNum_some]
  simp [jgt_num_num]

/-- The supply group, characterized with no hypotheses: it is the spec's
supply tier under the strict (truthiness) guard. -/
theorem supplyGroup_eq_strict (r : MarketRecord) :
    supplyGroup r = specSupplyTierStrict r.total_supply r.circulating_supply := by
  unfold supplyGroup specSupplyTierStrict
  cases ht : r.total_supply with
  | none => simp [truthy]
  | some t =>
    cases hu : r.circulating_supply with
    | none => simp [truthy]
    | some u =>
      rcases eq_or_ne t 0 with rfl | ht0
      · simp [truthy]
      rcases eq_or_ne u 0 with rfl | hu0
      · simp [truthy]
      rw [toJNum_some, toJNum_some, jdiv_num_num u ht0]
      simp [truthy, ht0, hu0, jlt_num_num]

theorem bonusGroup_eq {r : MarketRecord} {c v : ℚ} (hc : r.market_cap = some c)
    (hv : r.total_volume = some v) :
    bonusGroup r = specBonusTier c v := by
  unfold bonusGroup specBonusTier
  rw [hc, hv, toJNum_some, toJNum_some]
  simp [jgt_num_num]

/-- C1 counterexample: the claim read literally (supply tier whenever both
supply fields are present, per the §4.2 table) fails on a record whose
circulating supply is present but zero: the spec table awards the 3-point
supply tier, the code's truthiness guard skips the group. -/
theorem scorer_implements_spec_table_cex :
    recordZeroCirc.market_cap = some 5000000 ∧ (0 : ℚ) < 5000000
    ∧ recordZeroCirc.total_volume = some 1000000
    ∧ recordZeroCirc.price_change_percentage_24h = some 0
    ∧ analyzePotential recordZeroCirc ≠
        specScoreTable 5000000 1000000 0 recordZeroCirc.total_supply
          recordZeroCirc.circulating_supply := by
  exact ⟨rfl, of_decide_eq_true (by with_unfolding_all rfl), rfl, rfl,
    of_decide_eq_true (by with_unfolding_all rfl)⟩

/-- C1 (amended): on every record with numeric market cap (positive, per the
§3 invariant), volume and 24h change, `analyzePotential` computes exactly the
§4.2 rule table, with the supply group applying only when both supply fields
are present and non-zero (JS truthiness); factor texts appear in
rule-evaluation order, and Scenario A scores exactly 15. -/
theorem scorer_implements_spec_table :
    (∀ (r : MarketRecord) (c v p : ℚ), r.market_cap = some c → 0 < c →
      r.total_volume = some v → r.price_change_percentage_24h = some p →
      analyzePotential r = specScoreTableStrict c v p r.total_supply r.circulating_supply)
    ∧ (analyzePotential recordA).value = 15 := by
  constructor
  · intro r c v p hc hcpos hv hp
    unfold analyzePotential specScoreTableStrict
    rw [capGroup_eq hc, volumeGroup_eq hc hv (ne_of_gt hcpos), momentumGroup_eq hp,
      supplyGroup_eq_strict, bonusGroup_eq hc hv]
  · exact of_decide_eq_true (by with_unfolding_all rfl)

/-- Witness for C1 at Scenario A's record. -/
theorem scorer_implements_spec_table_witness :
    (0 : ℚ) < 5000000
    ∧ analyzePotential recordA =
        specScoreTableStrict 5000000 3000000 20 recordA.total_supply recordA.circulating_supply
    ∧ (analyzePotential recordA).value = 15 :=
  ⟨of_decide_eq_true (by with_unfolding_all rfl),
    scorer_implements_spec_table.1 recordA 5000000 3000000 20 rfl
      (of_decide_eq_true (by with_unfolding_all rfl)) rfl rfl,
    scorer_implements_spec_table.2⟩

/-!
Per-group bounds and firing conditions, for the score invariants.
-/

theorem capGroup_spec (r : MarketRecord) :
    (capGroup r).1 ≤ 4
    ∧ (capGroup r).2.length =
        (jlt (jdiv (toJNum r.market_cap) (JNum.num 1000000)) (JNum.num 50)).toNat
    ∧ (jlt (jdiv (toJNum r.market_cap) (JNum.num 1000000)) (JNum.num 50) = false →
        capGroup r = (0, [])) := by
  have hdef : capGroup r =
      (if jlt (jdiv (toJNum r.market_cap) (JNum.num 1000000)) (JNum.num 10) then
        ((4 : ℕ), ["Micro market cap with massive growth potential"])
      else if jlt (jdiv (toJNum r.market_cap) (JNum.num 1000000)) (JNum.num 50) then
        (3, ["Very low market cap with high growth potential"])
      else (0, [])) := rfl
  cases hb1 : jlt (jdiv (toJNum r.market_cap) (JNum.num 1000000)) (JNum.num 10) with
  | true =>
    have hb2 := jlt_num_mono (by norm_num : (10 : ℚ) ≤ 50) hb1
    rw [hdef, hb1, hb2]
    simp
  | false =>
    cases hb2 : jlt (jdiv (toJNum r.market_cap) (JNum.num 1000000)) (JNum.num 50) with
    | true => rw [hdef, hb1, hb2]; simp
    | false => rw [hdef, hb1, hb2]; simp

theorem volumeGroup_spec (r : MarketRecord) :
    (volumeGroup r).1 ≤ 4
    ∧ (volumeGroup r).2.length =
        (jgt (jdiv (toJNum r.total_volume) (toJNum r.market_cap)) (JNum.num (3/10))).toNat
    ∧ (jgt (jdiv (toJNum r.total_volume) (toJNum r.market_cap)) (JNum.num (3/10)) = false →
        volumeGroup r = (0, [])) := by
  have hdef : volumeGroup r =
      (if jgt (jdiv (toJNum r.total_volume) (toJNum r.market_cap)) (JNum.num (1/2)) then
        ((4 : ℕ), ["Exceptional trading volume relative to market cap"])
      else if jgt (jdiv (toJNum r.total_volume) (toJNum r.market_cap)) (JNum.num (3/10)) then
        (3, ["Very high trading volume relative to market cap"])
      else (0, [])) := rfl
  cases hb1 : jgt (jdiv (toJNum r.total_volume) (toJNum r.market_cap)) (JNum.num (1/2)) with
  | true =>
    have hb2 := jgt_num_mono (by norm_num : (3 : ℚ)/10 ≤ 1/2) hb1
    rw [hdef, hb1, hb2]
    simp
  | false =>
    cases hb2 : jgt (jdiv (toJNum r.total_volume) (toJNum r.market_cap)) (JNum.num (3/10)) with
    | true => rw [hdef, hb1, hb2]; simp
    | false => rw [hdef, hb1, hb2]; simp

theorem momentumGroup_spec (r : MarketRecord) :
    (momentumGroup r).1 ≤ 4
    ∧ (momentumGroup r).2.length = (jgt (toJNum r.price_change_percentage_24h) (JNum.num 8)).toNat
    ∧ (jgt (toJNum r.price_change_percentage_24h) (JNum.num 8) = false →
        momentumGroup r = (0, [])) := by
  have hdef : momentumGroup r =
      (if jgt (toJNum r.price_change_percentage_24h) (JNum.num 15) then
        ((4 : ℕ), ["Strong positive price momentum (>15%)"])
      else if jgt (toJNum r.price_change_percentage_24h) (JNum.num 8) then
        (2, ["Good positive price momentum (>8%)"])
      else (0, [])) := rfl
  cases hb1 : jgt (toJNum r.price_change_percentage_24h) (JNum.num 15) with
  | true =>
    have hb2 := jgt_num_mono (by norm_num : (8 : ℚ) ≤ 15) hb1
    rw [hdef, hb1, hb2]
    simp
  | false =>
    cases hb2 : jgt (toJNum r.price_change_percentage_24h) (JNum.num 8) with
    | true => rw [hdef, hb1, hb2]; simp
    | false => rw [hdef, hb1, hb2]; simp

theorem supplyGroup_spec (r : MarketRecord) :
    (supplyGroup r).1 ≤ 3
    ∧ (supplyGroup r).2.length =
        (truthy r.total_supply && truthy r.circulating_supply
          && jlt (jdiv (toJNum r.circulating_supply) (toJNum r.total_supply))
            (JNum.num (1/2))).toNat
    ∧ ((truthy r.total_supply && truthy r.circulating_supply
          && jlt (jdiv (toJNum r.circulating_supply) (toJNum r.total_supply))
            (JNum.num (1/2))) = false →
        supplyGroup r = (0, [])) := by
  have hdef : supplyGroup r =
      (if truthy r.total_supply && truthy r.circulating_supply then
        (if jlt (jdiv (toJNum r.circulating_supply) (toJNum r.total_supply)) (JNum.num (3/10)) then
          ((3 : ℕ), ["Very large room for supply growth"])
        else if jlt (jdiv (toJNum r.circulating_supply) (toJNum r.total_supply))
            (JNum.num (1/2)) then
          (2, ["Significant room for supply growth"])
        else (0, []))
      else (0, [])) := rfl
  cases hg : truthy r.total_supply && truthy r.circulating_supply with
  | true =>
    cases hb1 : jlt (jdiv (toJNum r.circulating_supply) (toJNum r.total_supply))
        (JNum.num (3/10)) with
    | true =>
      have hb2 := jlt_num_mono (by norm_num : (3 : ℚ)/10 ≤ 1/2) hb1
      rw [hdef, hg, hb1, hb2]
      simp
    | false =>
      cases hb2 : jlt (jdiv (toJNum r.circulating_supply) (toJNum r.total_supply))
          (JNum.num (1/2)) with
      | true => rw [hdef, hg, hb1, hb2]; simp
      | false => rw [hdef, hg, hb1, hb2]; simp
  | false =>
    rw [hdef, hg]
    simp

theorem bonusGroup_spec (r : MarketRecord) :
    (bonusGroup r).1 ≤ 2
    ∧ (bonusGroup r).2.length = (jgt (toJNum r.total_volume) (toJNum r.market_cap)).toNat
    ∧ (jgt (toJNum r.total_volume) (toJNum r.market_cap) = false → bonusGroup r = (0, [])) := by
  have hdef : bonusGroup r =
      (if jgt (toJNum r.total_volume) (toJNum r.market_cap) then
        ((2 : ℕ), ["Extremely high trading activity"])
      else (0, [])) := rfl
  cases hb : jgt (toJNum r.total_volume) (toJNum r.market_cap) with
  | true => rw [hdef, hb]; simp
  | false => rw [hdef, hb]; simp

/-- C3: the score value is at most 17, the factors list has exactly one entry
per triggered rule group (hence between 0 and 5), and a record triggering no
rule yields score 0 with an empty factors list. -/
theorem score_bounds_and_factor_count (r : MarketRecord) :
    (analyzePotential r).value ≤ 17
    ∧ (analyzePotential r).factors.length = triggeredCount r
    ∧ triggeredCount r ≤ 5
    ∧ (triggeredCount r = 0 → analyzePotential r = { value := 0, factors := [] }) := by
  obtain ⟨hcap1, hcap2, hcap3⟩ := capGroup_spec r
  obtain ⟨hvol1, hvol2, hvol3⟩ := volumeGroup_spec r
  obtain ⟨hmom1, hmom2, hmom3⟩ := momentumGroup_spec r
  obtain ⟨hsup1, hsup2, hsup3⟩ := supplyGroup_spec r
  obtain ⟨hbon1, hbon2, hbon3⟩ := bonusGroup_spec r
  refine ⟨?_, ?_, ?_, ?_⟩
  · unfold analyzePotential
    dsimp only
    omega
  · unfold analyzePotential triggeredCount
    simp only [List.length_append, hcap2, hvol2, hmom2, hsup2, hbon2]
  · unfold triggeredCount
    have b1 := Bool.toNat_le (jlt (jdiv (toJNum r.market_cap) (JNum.num 1000000)) (JNum.num 50))
    have b2 := Bool.toNat_le (jgt (jdiv (toJNum r.total_volume) (toJNum r.market_cap))
      (JNum.num (3/10)))
    have b3 := Bool.toNat_le (jgt (toJNum r.price_change_percentage_24h) (JNum.num 8))
    have b4 := Bool.toNat_le (truthy r.total_supply && truthy r.circulating_supply
      && jlt (jdiv (toJNum r.circulating_supply) (toJNum r.total_supply)) (JNum.num (1/2)))
    have b5 := Bool.toNat_le (jgt (toJNum r.total_volume) (toJNum r.market_cap))
    omega
  · intro h0
    unfold triggeredCount at h0
    have e1 : capGroup r = (0, []) := hcap3 (by
      rcases Bool.eq_false_or_eq_true (jlt (jdiv (toJNum r.market_cap) (JNum.num 1000000))
        (JNum.num 50)) with h | h
      · rw [h] at h0; simp at h0
      · exact h)
    have e2 : volumeGroup r = (0, []) := hvol3 (by
      rcases Bool.eq_false_or_eq_true (jgt (jdiv (toJNum r.total_volume) (toJNum r.market_cap))
        (JNum.num (3/10))) with h | h
      · rw [h] at h0; simp at h0
      · exact h)
    have e3 : momentumGroup r = (0, []) := hmom3 (by
      rcases Bool.eq_false_or_eq_true (jgt (toJNum r.price_change_percentage_24h)
        (JNum.num 8)) with h | h
      · rw [h] at h0; simp at h0
      · exact h)
    have e4 : supplyGroup r = (0, []) := hsup3 (by
      rcases Bool.eq_false_or_eq_true (truthy r.total_supply && truthy r.circulating_supply
        && jlt (jdiv (toJNum r.circulating_supply) (toJNum r.total_supply))
          (JNum.num (1/2))) with h | h
      · rw [h] at h0; simp at h0
      · exact h)
    have e5 : bonusGroup r = (0, []) := hbon3 (by
      rcases Bool.eq_false_or_eq_true (jgt (toJNum r.total_volume) (toJNum r.market_cap))
        with h | h
      · rw [h] at h0; simp at h0
      · exact h)
    unfold analyzePotential
    rw [e1, e2, e3, e4, e5]
    rfl

/-- Witness for C3: the bounds at Scenario A's record, and the no-rule case
at the all-absent record. -/
theorem score_bounds_and_factor_count_witness :
    (analyzePotential recordA).value ≤ 17
    ∧ (analyzePotential recordA).factors.length = triggeredCount recordA
    ∧ triggeredCount recordNone = 0
    ∧ analyzePotential recordNone = { value := 0, factors := [] } :=
  ⟨(score_bounds_and_factor_count recordA).1,
    (score_bounds_and_factor_count recordA).2.1,
    of_decide_eq_true (by with_unfolding_all rfl),
    (score_bounds_and_factor_count recordNone).2.2.2
      (of_decide_eq_true (by with_unfolding_all rfl))⟩

/-!
The supply-ratio group's guard (C4) and the bonus/volume-tier implication
(C10).
-/

/-- C4 counterexample: the claim's guard ("both present, non-zero
denominator, ratio < 0.5") holds on a record with a present-but-zero
circulating supply, yet the group contributes nothing: the code's guard is
truthiness, and `0` is falsy. -/
theorem supply_group_guard_cex :
    recordZeroCirc.total_supply = some 100 ∧ recordZeroCirc.circulating_supply = some 0
    ∧ (100 : ℚ) ≠ 0 ∧ (0 : ℚ) / 100 < 1/2
    ∧ supplyGroup recordZeroCirc = (0, [])
    ∧ (analyzePotential recordZeroCirc).factors =
        ["Micro market cap with massive growth potential"] :=
  ⟨rfl, rfl, of_decide_eq_true (by with_unfolding_all rfl),
    of_decide_eq_true (by with_unfolding_all rfl),
    of_decide_eq_true (by with_unfolding_all rfl),
    of_decide_eq_true (by with_unfolding_all rfl)⟩

/-- C4 (amended): the supply-ratio group contributes exactly its spec tier
when both supply fields are present and non-zero (3 points below ratio 0.3,
else 2 below 0.5, else nothing), and contributes nothing — no points, no
factor — when either field is absent or zero. -/
theorem supply_group_guard (r : MarketRecord) :
    (∀ t u, r.total_supply = some t → r.circulating_supply = some u → t ≠ 0 → u ≠ 0 →
        supplyGroup r =
          (if u / t < 3/10 then ((3 : ℕ), ["Very large room for supply growth"])
           else if u / t < 1/2 then (2, ["Significant room for supply growth"])
           else (0, [])))
    ∧ ((r.total_supply = none ∨ r.total_supply = some 0 ∨ r.circulating_supply = none
        ∨ r.circulating_supply = some 0) → supplyGroup r = (0, [])) := by
  constructor
  · intro t u ht hu ht0 hu0
    rw [supplyGroup_eq_strict, ht, hu]
    unfold specSupplyTierStrict
    simp [ht0, hu0]
  · intro h
    rw [supplyGroup_eq_strict]
    rcases h with h | h | h | h <;> rw [h] <;> unfold specSupplyTierStrict
    · rfl
    · cases r.circulating_supply <;> simp
    · cases r.total_supply <;> simp
    · cases r.total_supply <;> simp

/-- Witness for C4 at Scenario A's record (ratio 0.2: top supply tier) and
the all-absent record. -/
theorem supply_group_guard_witness :
    (100 : ℚ) ≠ 0 ∧ (20 : ℚ) ≠ 0
    ∧ supplyGroup recordA =
        (if (20 : ℚ) / 100 < 3/10 then ((3 : ℕ), ["Very large room for supply growth"])
         else if (20 : ℚ) / 100 < 1/2 then (2, ["Significant room for supply growth"])
         else (0, []))
    ∧ supplyGroup recordA = (3, ["Very large room for supply growth"])
    ∧ supplyGroup recordNone = (0, []) :=
  ⟨of_decide_eq_true (by with_unfolding_all rfl),
    of_decide_eq_true (by with_unfolding_all rfl),
    (supply_group_guard recordA).1 100 20 rfl rfl
      (of_decide_eq_true (by with_unfolding_all rfl))
      (of_decide_eq_true (by with_unfolding_all rfl)),
    of_decide_eq_true (by with_unfolding_all rfl),
    (supply_group_guard recordNone).2 (Or.inl rfl)⟩

/-- C10: on a record with positive numeric market cap, if the bonus rule
fires (volume exceeds market cap) then the volume-ratio group fired its
4-point top tier; both factor texts are present and the score is at least
6. -/
theorem bonus_implies_top_volume_tier (r : MarketRecord) (c : ℚ)
    (hc : r.market_cap = some c) (hcpos : 0 < c)
    (hbonus : jgt (toJNum r.total_volume) (toJNum r.market_cap) = true) :
    bonusGroup r = (2, ["Extremely high trading activity"])
    ∧ volumeGroup r = (4, ["Exceptional trading volume relative to market cap"])
    ∧ "Extremely high trading activity" ∈ (analyzePotential r).factors
    ∧ "Exceptional trading volume relative to market cap" ∈ (analyzePotential r).factors
    ∧ 6 ≤ (analyzePotential r).value := by
  have hb : bonusGroup r = (2, ["Extremely high trading activity"]) := by
    unfold bonusGroup
    rw [hbonus]
    rfl
  obtain ⟨v, hv⟩ : ∃ v, r.total_volume = some v := by
    cases hv : r.total_volume with
    | none =>
      rw [hv, hc] at hbonus
      exact absurd hbonus (by simp [toJNum, jgt_nan_left])
    | some v => exact ⟨v, rfl⟩
  have hvc : c < v := by
    rw [hv, hc, toJNum_some, toJNum_some, jgt_num_num] at hbonus
    exact of_decide_eq_true hbonus
  have hvol : volumeGroup r = (4, ["Exceptional trading volume relative to market cap"]) := by
    rw [volumeGroup_eq hc hv (ne_of_gt hcpos)]
    unfold specVolTier
    have hgt : v / c > 1/2 := lt_trans (by norm_num) ((one_lt_div hcpos).mpr hvc)
    rw [if_pos hgt]
  refine ⟨hb, hvol, ?_, ?_, ?_⟩
  · unfold analyzePotential
    simp [hb]
  · unfold analyzePotential
    simp [hvol]
  · unfold analyzePotential
    dsimp only
    rw [hb, hvol]
    omega

/-- Witness for C10 at a record whose volume is twice its market cap. -/
theorem bonus_implies_top_volume_tier_witness :
    recordHot.market_cap = some 1000000 ∧ (0 : ℚ) < 1000000
    ∧ jgt (toJNum recordHot.total_volume) (toJNum recordHot.market_cap) = true
    ∧ (bonusGroup recordHot = (2, ["Extremely high trading activity"])
      ∧ volumeGroup recordHot = (4, ["Exceptional trading volume relative to market cap"])
      ∧ "Extremely high trading activity" ∈ (analyzePotential recordHot).factors
      ∧ "Exceptional trading volume relative to market cap" ∈ (analyzePotential recordHot).factors
      ∧ 6 ≤ (analyzePotential recordHot).value) :=
  ⟨rfl, of_decide_eq_true (by with_unfolding_all rfl),
    of_decide_eq_true (by with_unfolding_all rfl),
    bonus_implies_top_volume_tier recordHot 1000000 rfl
      (of_decide_eq_true (by with_unfolding_all rfl))
      (of_decide_eq_true (by with_unfolding_all rfl))⟩

/-!
Malformed records and the filter (C8).
-/

/-- C8: a record whose `marketCap` or `totalVolume` is absent or non-numeric
fails the filter predicate — the predicate simply evaluates to false, there
is no fault path — and such a record never appears in the filter's output. -/
theorem filter_excludes_malformed (r : MarketRecord)
    (h : r.market_cap = none ∨ r.total_volume = none) :
    gemPredicate r = false ∧ ∀ data : List MarketRecord, r ∉ potentialGems data := by
  have hfalse : gemPredicate r = false := by
    rcases h with h | h
    · unfold gemPredicate
      rw [h]
      simp [toJNum, jdiv_nan_left, jlt_nan_left]
    · unfold gemPredicate
      rw [h]
      simp [toJNum, jdiv_nan_left, jgt_nan_left]
  refine ⟨hfalse, ?_⟩
  intro data hmem
  rw [potentialGems, List.mem_filter, hfalse] at hmem
  exact absurd hmem.2 (by simp)

/-- Witness for C8 at the all-absent record. -/
theorem filter_excludes_malformed_witness :
    gemPredicate recordNone = false ∧ recordNone ∉ potentialGems [recordNone, recordA] :=
  ⟨(filter_excludes_malformed recordNone (Or.inl rfl)).1,
    (filter_excludes_malformed recordNone (Or.inl rfl)).2 [recordNone, recordA]⟩

/-!
The narrative generator (C7).
-/

/-- C7 counterexample: the claim read literally puts clause 4 in the output
whenever both supply fields are present, but on a record whose circulating
supply is present and zero the code's truthy-guarded `supplyRatio` is `0`,
falsy, and the clause is dropped. -/
theorem narrate_clause_guards_cex :
    recordZeroCirc.total_supply = some 100 ∧ recordZeroCirc.circulating_supply = some 0
    ∧ generateAnalysis recordZeroCirc ≠
        specNarrate recordZeroCirc.name 5000000 1000000 0 (some 100) (some 0)
    ∧ generateAnalysis recordZeroCirc =
        "Z shows promise with a market cap of only $5.00M. " :=
  ⟨rfl, rfl, of_decide_eq_true (by with_unfolding_all rfl),
    of_decide_eq_true (by with_unfolding_all rfl)⟩

/-- C7 (amended): on every record with numeric positive market cap, numeric
volume and numeric 24h change, `generateAnalysis` is clause 1 followed by
clause 2 iff `volume/cap > 0.3`, clause 3 iff the 24h change is positive, and
clause 4 iff both supply fields are present AND non-zero (truthiness), each
present clause separated by a single space. -/
theorem narrate_clause_guards (r : MarketRecord) (c v p : ℚ)
    (hc : r.market_cap = some c) (hcpos : 0 < c)
    (hv : r.total_volume = some v) (hp : r.price_change_percentage_24h = some p) :
    generateAnalysis r = specNarrateStrict r.name c v p r.total_supply r.circulating_supply := by
  unfold generateAnalysis specNarrateStrict specClause1 specClause2 specClause3 specClause4
  rw [hc, hv, hp, toJNum_some, toJNum_some, toJNum_some,
    jdiv_num_num c (by norm_num : (1000000 : ℚ) ≠ 0), jdiv_num_num v (ne_of_gt hcpos)]
  simp only [jgt_num_num, decide_eq_true_eq, jmul, toFixed]
  cases ht : r.total_supply with
  | none => simp [truthy]
  | some t =>
    rcases eq_or_ne t 0 with rfl | ht0
    · cases hu : r.circulating_supply <;> simp [truthy]
    cases hu : r.circulating_supply with
    | none =>
      rw [toJNum_some]
      simp [truthy, toJNum, ht0, jdiv_nan_left, jmul_nan_left, jtruthy]
    | some u =>
      rw [toJNum_some, toJNum_some, jdiv_num_num u ht0]
      rcases eq_or_ne u 0 with rfl | hu0
      · simp [truthy, ht0, jtruthy, jmul]
      · have hratio : u / t * 100 ≠ 0 :=
          mul_ne_zero (div_ne_zero hu0 ht0) (by norm_num)
        simp [truthy, ht0, hu0, jtruthy, jmul, hratio, toFixed]

/-!
The narrative generator witness, then the sorting stack.
-/

set_option maxRecDepth 10000 in
/-- Witness for C7 at Scenario A's record: all four clauses present. -/
theorem narrate_clause_guards_witness :
    (0 : ℚ) < 5000000
    ∧ generateAnalysis recordA =
        specNarrateStrict recordA.name 5000000 3000000 20 recordA.total_supply
          recordA.circulating_supply
    ∧ generateAnalysis recordA =
        "A shows promise with a market cap of only $5.00M. It has strong trading volume at 60.0% of its market cap. Price is up 20.0% in the last 24h. Only 20.0% of total supply is in circulation. " :=
  ⟨of_decide_eq_true (by with_unfolding_all rfl),
    narrate_clause_guards recordA 5000000 3000000 20 rfl
      (of_decide_eq_true (by with_unfolding_all rfl)) rfl rfl,
    of_decide_eq_true (by with_unfolding_all rfl)⟩

theorem mem_insertSorted {le : α → α → Bool} {x y : α} {l : List α} :
    y ∈ insertSorted le x l ↔ y = x ∨ y ∈ l := by
  induction l with
  | nil => simp [insertSorted]
  | cons z zs ih =>
    unfold insertSorted
    split
    · simp [List.mem_cons, or_comm, or_assoc, or_left_comm]
    · simp only [List.mem_cons, ih]
      tauto

theorem insertSorted_perm (le : α → α → Bool) (x : α) (l : List α) :
    (insertSorted le x l).Perm (x :: l) := by
  induction l with
  | nil => exact List.Perm.refl _
  | cons z zs ih =>
    unfold insertSorted
    split
    · exact List.Perm.refl _
    · exact (List.Perm.cons z ih).trans (List.Perm.swap x z zs)

theorem jsSort_perm (le : α → α → Bool) (l : List α) : (jsSort le l).Perm l := by
  induction l with
  | nil => exact List.Perm.refl _
  | cons x xs ih =>
    exact (insertSorted_perm le x (jsSort le xs)).trans (List.Perm.cons x ih)

theorem mem_jsSort {le : α → α → Bool} {l : List α} {y : α} :
    y ∈ jsSort le l ↔ y ∈ l :=
  (jsSort_perm le l).mem_iff

theorem pairwise_insertSorted {le : α → α → Bool} {x : α} {l : List α}
    (hl : l.Pairwise (fun a b => le a b = true))
    (htot : ∀ y ∈ l, le x y = true ∨ le y x = true)
    (htr : ∀ y ∈ l, ∀ z ∈ l, le x y = true → le y z = true → le x z = true) :
    (insertSorted le x l).Pairwise (fun a b => le a b = true) := by
  induction l with
  | nil => simp [insertSorted]
  | cons z zs ih =>
    rw [List.pairwise_cons] at hl
    obtain ⟨hz, hzs⟩ := hl
    unfold insertSorted
    split
    next hxz =>
      refine List.Pairwise.cons ?_ (List.Pairwise.cons hz hzs)
      intro y hy
      rcases List.mem_cons.mp hy with rfl | hy
      · exact hxz
      · exact htr z (by simp) y (by simp [hy]) hxz (hz y hy)
    next hxz =>
      have hzx : le z x = true := by
        rcases htot z (by simp) with h | h
        · exact absurd h hxz
        · exact h
      refine List.Pairwise.cons ?_
        (ih hzs (fun y hy => htot y (by simp [hy]))
          (fun y hy w hw => htr y (by simp [hy]) w (by simp [hw])))
      intro y hy
      rcases mem_insertSorted.mp hy with rfl | hy
      · exact hzx
      · exact hz y hy

theorem pairwise_jsSort {le : α → α → Bool} {l : List α}
    (htot : ∀ a ∈ l, ∀ b ∈ l, le a b = true ∨ le b a = true)
    (htr : ∀ a ∈ l, ∀ b ∈ l, ∀ c ∈ l, le a b = true → le b c = true → le a c = true) :
    (jsSort le l).Pairwise (fun a b => le a b = true) := by
  induction l with
  | nil => simp [jsSort]
  | cons x xs ih =>
    unfold jsSort
    apply pairwise_insertSorted
    · exact ih (fun a ha b hb => htot a (by simp [ha]) b (by simp [hb]))
        (fun a ha b hb c hc => htr a (by simp [ha]) b (by simp [hb]) c (by simp [hc]))
    · intro y hy
      exact htot x (by simp) y (by simp [mem_jsSort.mp hy])
    · intro y hy z hz
      exact htr x (by simp) y (by simp [mem_jsSort.mp hy]) z (by simp [mem_jsSort.mp hz])

theorem sublist_insertSorted (le : α → α → Bool) (x : α) (l : List α) :
    l.Sublist (insertSorted le x l) := by
  induction l with
  | nil => simp [insertSorted]
  | cons z zs ih =>
    unfold insertSorted
    split
    · exact List.sublist_cons_self x (z :: zs)
    · exact List.Sublist.cons₂ z ih

theorem pair_sublist_insertSorted {le : α → α → Bool} {a b : α}
    (hab : le a b = true) {m : List α} (hb : b ∈ m) :
    [a, b].Sublist (insertSorted le a m) := by
  induction m with
  | nil => cases hb
  | cons u us ih =>
    unfold insertSorted
    split
    next hau =>
      exact List.Sublist.cons₂ a (List.singleton_sublist.mpr hb)
    next hau =>
      rcases List.mem_cons.mp hb with rfl | hb2
      · exact absurd hab hau
      · exact List.Sublist.cons u (ih hb2)

/-- Stability of the sort: an earlier element that may precede a later one
stays before it. -/
theorem jsSort_pair_stable {le : α → α → Bool} {a b : α} (hab : le a b = true) :
    ∀ {l : List α}, [a, b].Sublist l → [a, b].Sublist (jsSort le l) := by
  intro l
  induction l with
  | nil =>
    intro h
    exact absurd (List.sublist_nil.mp h) (by simp)
  | cons z zs ih =>
    intro h
    unfold jsSort
    cases h with
    | cons _ h2 => exact (ih h2).trans (sublist_insertSorted le z (jsSort le zs))
    | cons₂ _ h2 =>
      exact pair_sublist_insertSorted hab (mem_jsSort.mpr (List.singleton_sublist.mp h2))

theorem toJNum_ne_nan {o : Option ℚ} (h : toJNum o ≠ JNum.nan) :
    ∃ q, toJNum o = JNum.num q := by
  cases o with
  | none => exact absurd rfl h
  | some q => exact ⟨q, rfl⟩

/-- On records with numeric sort keys, the comparator-induced relation is the
key order for the requested field and direction. -/
theorem sortLe_iff {f : SortField} {d : SortDirection} {a b : MarketRecord}
    (ha : keyNumeric f a = true) (hb : keyNumeric f b = true) :
    (sortLe f d a b = true ↔ keyOrder f d a b) := by
  cases f with
  | potentialScore =>
    cases d <;>
      · simp only [sortLe, sortComparator, keyOrder, keyQ, jgt_num_num]
        simp [sub_pos, not_lt]
  | marketCap =>
    obtain ⟨qa, hqa⟩ := toJNum_ne_nan (of_decide_eq_true ha)
    obtain ⟨qb, hqb⟩ := toJNum_ne_nan (of_decide_eq_true hb)
    cases d <;>
      · simp only [sortLe, sortComparator, keyOrder, keyQ, fieldValue, hqa, hqb,
          jsub_num_num, jgt_num_num]
        simp [sub_pos, not_lt]
  | totalVolume =>
    obtain ⟨qa, hqa⟩ := toJNum_ne_nan (of_decide_eq_true ha)
    obtain ⟨qb, hqb⟩ := toJNum_ne_nan (of_decide_eq_true hb)
    cases d <;>
      · simp only [sortLe, sortComparator, keyOrder, keyQ, fieldValue, hqa, hqb,
          jsub_num_num, jgt_num_num]
        simp [sub_pos, not_lt]
  | priceChangePercent24h =>
    obtain ⟨qa, hqa⟩ := toJNum_ne_nan (of_decide_eq_true ha)
    obtain ⟨qb, hqb⟩ := toJNum_ne_nan (of_decide_eq_true hb)
    cases d <;>
      · simp only [sortLe, sortComparator, keyOrder, keyQ, fieldValue, hqa, hqb,
          jsub_num_num, jgt_num_num]
        simp [sub_pos, not_lt]
  | totalSupply =>
    obtain ⟨qa, hqa⟩ := toJNum_ne_nan (of_decide_eq_true ha)
    obtain ⟨qb, hqb⟩ := toJNum_ne_nan (of_decide_eq_true hb)
    cases d <;>
      · simp only [sortLe, sortComparator, keyOrder, keyQ, fieldValue, hqa, hqb,
          jsub_num_num, jgt_num_num]
        simp [sub_pos, not_lt]
  | circulatingSupply =>
    obtain ⟨qa, hqa⟩ := toJNum_ne_nan (of_decide_eq_true ha)
    obtain ⟨qb, hqb⟩ := toJNum_ne_nan (of_decide_eq_true hb)
    cases d <;>
      · simp only [sortLe, sortComparator, keyOrder, keyQ, fieldValue, hqa, hqb,
          jsub_num_num, jgt_num_num]
        simp [sub_pos, not_lt]

theorem sortLe_total {f : SortField} (d : SortDirection) {a b : MarketRecord}
    (ha : keyNumeric f a = true) (hb : keyNumeric f b = true) :
    sortLe f d a b = true ∨ sortLe f d b a = true := by
  rcases le_total (keyQ f b) (keyQ f a) with h | h
  · cases d with
    | desc => exact Or.inl ((sortLe_iff ha hb).mpr h)
    | asc => exact Or.inr ((sortLe_iff hb ha).mpr h)
  · cases d with
    | desc => exact Or.inr ((sortLe_iff hb ha).mpr h)
    | asc => exact Or.inl ((sortLe_iff ha hb).mpr h)

theorem sortLe_trans {f : SortField} {d : SortDirection} {a b c : MarketRecord}
    (ha : keyNumeric f a = true) (hb : keyNumeric f b = true) (hc : keyNumeric f c = true)
    (h1 : sortLe f d a b = true) (h2 : sortLe f d b c = true) :
    sortLe f d a c = true := by
  cases d with
  | desc =>
    exact (sortLe_iff ha hc).mpr
      (le_trans ((sortLe_iff hb hc).mp h2) ((sortLe_iff ha hb).mp h1))
  | asc =>
    exact (sortLe_iff ha hc).mpr
      (le_trans ((sortLe_iff ha hb).mp h1) ((sortLe_iff hb hc).mp h2))

/-- C5: for every input, sort field and direction (keys numeric where the
field is an optional one), `rank` returns a permutation of its input, sorted
per the requested field and direction, and stable: two records with equal
keys — in particular equal computed scores under `potentialScore desc` —
keep their relative input order. -/
theorem rank_perm_sorted_stable (f : SortField) (d : SortDirection)
    (l : List MarketRecord) (hnum : ∀ r ∈ l, keyNumeric f r = true) :
    (sortData f d l).Perm l
    ∧ (sortData f d l).Pairwise (keyOrder f d)
    ∧ (∀ a b, [a, b].Sublist l → keyQ f a = keyQ f b →
        [a, b].Sublist (sortData f d l)) := by
  refine ⟨jsSort_perm _ l, ?_, ?_⟩
  · have hp := pairwise_jsSort
      (fun a ha b hb => sortLe_total d (hnum a ha) (hnum b hb))
      (fun a ha b hb c hc h1 h2 =>
        sortLe_trans (hnum a ha) (hnum b hb) (hnum c hc) h1 h2)
    refine hp.imp_of_mem ?_
    intro a b hma hmb hab
    exact (sortLe_iff (hnum a (mem_jsSort.mp hma)) (hnum b (mem_jsSort.mp hmb))).mp hab
  · intro a b hsub heq
    have hma : a ∈ l := hsub.subset (by simp)
    have hmb : b ∈ l := hsub.subset (by simp)
    have hab : sortLe f d a b = true := by
      refine (sortLe_iff (hnum a hma) (hnum b hmb)).mpr ?_
      cases d <;> simp [keyOrder, heq]
    exact jsSort_pair_stable hab hsub

set_option maxRecDepth 10000 in
/-- Witness for C5: the Scenario D tie pair (both records score 4), ranked by
score descending, keeps its input order. -/
theorem rank_perm_sorted_stable_witness :
    (∀ r ∈ [recordT1, recordT2], keyNumeric SortField.potentialScore r = true)
    ∧ (analyzePotential recordT1).value = (analyzePotential recordT2).value
    ∧ (sortData SortField.potentialScore SortDirection.desc [recordT1, recordT2]).Perm
        [recordT1, recordT2]
    ∧ sortData SortField.potentialScore SortDirection.desc [recordT1, recordT2] =
        [recordT1, recordT2] := by
  have hval : (analyzePotential recordT1).value = (analyzePotential recordT2).value :=
    of_decide_eq_true (by with_unfolding_all rfl)
  have hkey : keyQ SortField.potentialScore recordT1 = keyQ SortField.potentialScore recordT2 := by
    show ((analyzePotential recordT1).value : ℚ) = ((analyzePotential recordT2).value : ℚ)
    exact_mod_cast hval
  have h := rank_perm_sorted_stable SortField.potentialScore SortDirection.desc
    [recordT1, recordT2] (fun r _ => rfl)
  refine ⟨fun r _ => rfl, hval, h.1, ?_⟩
  have hsub := h.2.2 recordT1 recordT2 (List.Sublist.refl _) hkey
  exact (hsub.eq_of_length (h.1.length_eq.symm)).symm

/-!
The array-store frame results (C6, C9).
-/

theorem getD_append_of_lt {α : Type} (l1 l2 : List α) (d : α) (j : ℕ) (h : j < l1.length) :
    (l1 ++ l2).getD j d = l1.getD j d := by
  rw [List.getD_eq_getElem?_getD, List.getD_eq_getElem?_getD, List.getElem?_append, if_pos h]

theorem getD_append_self {α : Type} (l1 : List α) (x : α) (d : α) :
    (l1 ++ [x]).getD l1.length d = x := by
  rw [List.getD_eq_getElem?_getD, List.getElem?_append, if_neg (lt_irrefl _)]
  simp

/-- C6: `rank` returns a fresh array: the reference it returns is new, every
previously allocated array — in particular the input — still holds the same
records in the same order, and the new array holds the sorted sequence. -/
theorem rank_preserves_input_array (f : SortField) (d : SortDirection)
    (s : ArrayStore) (ref : ℕ) :
    (sortDataCall f d s ref).2 = s.arrays.length
    ∧ (∀ j, j < s.arrays.length →
        readArray (sortDataCall f d s ref).1 j = readArray s j)
    ∧ readArray (sortDataCall f d s ref).1 (sortDataCall f d s ref).2 =
        sortData f d (readArray s ref) := by
  refine ⟨rfl, ?_, ?_⟩
  · intro j hj
    unfold sortDataCall readArray
    exact getD_append_of_lt _ _ _ _ hj
  · unfold sortDataCall readArray
    exact getD_append_self _ _ _

set_option maxRecDepth 10000 in
/-- Witness for C6 on a concrete one-array store. -/
theorem rank_preserves_input_array_witness :
    (0 : ℕ) < storeW.arrays.length
    ∧ readArray (sortDataCall SortField.potentialScore SortDirection.desc storeW 0).1 0 =
        readArray storeW 0
    ∧ readArray storeW 0 = [recordT1, recordT2] :=
  ⟨by norm_num [storeW],
    (rank_preserves_input_array SortField.potentialScore SortDirection.desc storeW 0).2.1 0
      (by norm_num [storeW]),
    rfl⟩

/-- C9: the pipeline is deterministic and referentially transparent: calling
`rank` twice on the same input array yields arrays with identical contents;
its output depends only on the referenced array's contents, not on any other
state; and scores recomputed after sorting (as the chart does) are consistent
with the sorted order. -/
theorem pipeline_referential_transparency (f : SortField) (d : SortDirection)
    (s : ArrayStore) (ref : ℕ) (h : ref < s.arrays.length) :
    readArray (sortDataCall f d (sortDataCall f d s ref).1 ref).1
        (sortDataCall f d s ref).2 =
      readArray (sortDataCall f d (sortDataCall f d s ref).1 ref).1
        (sortDataCall f d (sortDataCall f d s ref).1 ref).2
    ∧ (∀ s2 ref2, readArray s2 ref2 = readArray s ref →
        readArray (sortDataCall f d s2 ref2).1 (sortDataCall f d s2 ref2).2 =
          readArray (sortDataCall f d s ref).1 (sortDataCall f d s ref).2)
    ∧ (∀ l : List MarketRecord,
        (sortData SortField.potentialScore SortDirection.desc l).Pairwise
          (fun a b => (analyzePotential b).value ≤ (analyzePotential a).value)) := by
  refine ⟨?_, ?_, ?_⟩
  · unfold sortDataCall readArray
    dsimp only
    rw [getD_append_of_lt _ _ _ _ (by simp : s.arrays.length < (s.arrays ++
      [sortData f d (s.arrays.getD ref [])]).length)]
    rw [getD_append_self, getD_append_self]
    rw [getD_append_of_lt _ _ _ _ h]
  · intro s2 ref2 heq
    unfold sortDataCall readArray
    dsimp only
    rw [getD_append_self, getD_append_self]
    unfold readArray at heq
    rw [heq]
  · intro l
    have hkey : ∀ r ∈ l, keyNumeric SortField.potentialScore r = true := fun r _ => rfl
    have hp := pairwise_jsSort
      (fun a ha b hb => sortLe_total SortDirection.desc (hkey a ha) (hkey b hb))
      (fun a ha b hb c hc h1 h2 =>
        sortLe_trans (hkey a ha) (hkey b hb) (hkey c hc) h1 h2)
    unfold sortData
    refine hp.imp_of_mem ?_
    intro a b hma hmb hab
    have hq := (sortLe_iff (hkey a (mem_jsSort.mp hma)) (hkey b (mem_jsSort.mp hmb))).mp hab
    have hq2 : ((analyzePotential b).value : ℚ) ≤ ((analyzePotential a).value : ℚ) := hq
    exact_mod_cast hq2

set_option maxRecDepth 10000 in
/-- Witness for C9 on the concrete store. -/
theorem pipeline_referential_transparency_witness :
    (0 : ℕ) < storeW.arrays.length
    ∧ readArray
        (sortDataCall SortField.potentialScore SortDirection.desc
          (sortDataCall SortField.potentialScore SortDirection.desc storeW 0).1 0).1
        (sortDataCall SortField.potentialScore SortDirection.desc storeW 0).2 =
      readArray
        (sortDataCall SortField.potentialScore SortDirection.desc
          (sortDataCall SortField.potentialScore SortDirection.desc storeW 0).1 0).1
        (sortDataCall SortField.potentialScore SortDirection.desc
          (sortDataCall SortField.potentialScore SortDirection.desc storeW 0).1 0).2 :=
  ⟨by norm_num [storeW],
    (pipeline_referential_transparency SortField.potentialScore SortDirection.desc storeW 0
      (by norm_num [storeW])).1⟩
